import Mathlib

/-
Verification of the Region data structure from src/code/src/processors/region.cpp.

The embedding follows the source file closely.  A Mat in mask mode is
modelled as its grid of byte values (row major, one inner list per row,
step = width) together with the ROI offset reported by locateROI; in
rectangle mode only the size and the offset matter and they are passed
directly.  C++ int coordinates are modelled as Int (no overflow is
involved in any claim), uchar cells as Nat byte values where zero means
unset.  The QMap of y coordinates is modelled as an association list in
which later insertions are prepended, so lookup of the first match gives
the QMap replace semantics.
-/

namespace ImageProcessing

/-- Two dimensional integer coordinate, mirroring RPoint from the source. -/
structure RPoint where
  x : Int
  y : Int
deriving DecidableEq

instance : Add RPoint := ⟨fun a b => ⟨a.x + b.x, a.y + b.y⟩⟩

/-- Modelled from the spec: the definition of RPoint.operator< is not under
src/ (only region.cpp is).  The spec requires one genuine total order used
uniformly, leaving the exact rule an implementation choice, and the source
comment in adjacentTo notes that two points can have equal x coordinates and
still be ordered; we model the order as lexicographic on x and then y. -/
def rpLt (a b : RPoint) : Bool :=
  decide (a.x < b.x) || (decide (a.x = b.x) && decide (a.y < b.y))

/-- Region record: bounding box corners, the stored boundary points, and the
ycoords map from a row value to the index of the first point of that row. -/
structure Region where
  bound_min : RPoint
  bound_max : RPoint
  points : List RPoint
  ycoords : List (Int × Nat)
deriving DecidableEq

/-- Loop of Region.buildYMap: walk the point list with the current row value
and the running index, inserting an entry whenever the row value changes. -/
def buildYMapAux : List RPoint → Int → Nat → List (Int × Nat) → List (Int × Nat)
  | [], _, _, m => m
  | q :: rest, current, i, m =>
    if current ≠ q.y then buildYMapAux rest q.y (i + 1) ((q.y, i) :: m)
    else buildYMapAux rest current (i + 1) m

/-- Region.buildYMap: empty map for an empty point list, else the first row
is inserted at index 0 and the loop scans the whole list from index 0. -/
def buildYMap (pts : List RPoint) : List (Int × Nat) :=
  match pts with
  | [] => []
  | q :: _ => buildYMapAux pts q.y 0 [(q.y, 0)]

/-- QMap.value lookup: first match wins, which together with prepending on
insert gives the replace-on-duplicate behaviour of QMap.insert. -/
def ymapValue (m : List (Int × Nat)) (k : Int) : Option Nat :=
  (m.find? (fun e => e.1 == k)).map (fun e => e.2)

/-- Loop of Region.inBoundary, exactly as written in the source: starting
from the index stored for the row of q, iterate while the index i is below
the list size and the index i itself equals q.y (the source compares the
loop counter with the y coordinate), testing each visited point against q.
The fuel argument only bounds the iteration count; inBoundary passes enough
fuel for the loop to run to its own exit condition. -/
def inBoundaryLoop (pts : List RPoint) (q : RPoint) : Nat → Nat → Bool
  | _, 0 => false
  | i, fuel + 1 =>
    if i < pts.length ∧ (i : Int) = q.y then
      if pts.getD i ⟨0, 0⟩ = q then true
      else inBoundaryLoop pts q (i + 1) fuel
    else false

/-- Region.inBoundary: false when ycoords has no entry for q.y, otherwise
run the scan loop from the stored index. -/
def inBoundary (r : Region) (q : RPoint) : Bool :=
  match ymapValue r.ycoords q.y with
  | none => false
  | some start => inBoundaryLoop r.points q start (r.points.length + 1)

/-- Probe test of Region.interior at radius i: whether any of the four
axis probes at distance i from q lands on a boundary point. -/
def hitAny (r : Region) (q : RPoint) (i : Int) : Bool :=
  inBoundary r (q + ⟨i, 0⟩) || inBoundary r (q + ⟨-i, 0⟩) ||
  inBoundary r (q + ⟨0, i⟩) || inBoundary r (q + ⟨0, -i⟩)

/-- Exit test of Region.interior at radius i, exactly as in the source: the
loop aborts with false only when the probes are outside the bounding box in
all four directions simultaneously. -/
def outAll (r : Region) (q : RPoint) (i : Int) : Bool :=
  decide (q.x - i < r.bound_min.x ∧ q.x + i > r.bound_max.x ∧
          q.y - i < r.bound_min.y ∧ q.y + i > r.bound_max.y)

/-- Loop of Region.interior: at radius i the four probes are made first,
then the bounding box exit test runs (returning false even when a probe just
hit), and then the loop condition is re-evaluated, so the function returns
true as soon as any single direction has resolved.  The fuel only bounds the
iteration count; interior passes enough fuel for outAll to be reached. -/
def interiorLoop (r : Region) (q : RPoint) : Int → Nat → Bool
  | _, 0 => false
  | i, fuel + 1 =>
    if outAll r q i then false
    else if hitAny r q i then true
    else interiorLoop r q (i + 1) fuel

/-- Fuel sufficient for interiorLoop to reach its own exit condition. -/
def interiorFuel (r : Region) (q : RPoint) : Nat :=
  (q.x - r.bound_min.x).toNat + (r.bound_max.x - q.x).toNat +
  (q.y - r.bound_min.y).toNat + (r.bound_max.y - q.y).toNat + 2

/-- Region.interior: run the probe loop from radius 1. -/
def interior (r : Region) (q : RPoint) : Bool :=
  interiorLoop r q 1 (interiorFuel r q)

/-- Region.contains: fast reject through the point order, then boundary or
interior membership. -/
def contains (r : Region) (q : RPoint) : Bool :=
  if rpLt q r.bound_min || rpLt r.bound_max q then false
  else inBoundary r q || interior r q

/-- Modelled from the spec: the two argument adjacentPoint(p, other) called
by adjacentTo is declared in the missing header and has no definition in
region.cpp (the file only defines a one argument variant that tests the own
boundary of the receiver).  Per the spec it is true iff any 4-neighbour of q
is in the boundary set of other, tested with inBoundary as defined above,
matching the body of the one argument variant applied to other. -/
def adjacentPoint (q : RPoint) (other : Region) : Bool :=
  inBoundary other (q + ⟨-1, 0⟩) || inBoundary other (q + ⟨1, 0⟩) ||
  inBoundary other (q + ⟨0, -1⟩) || inBoundary other (q + ⟨0, 1⟩)

/-- Region.adjacentTo: reject when the bounding boxes are disjoint in both
coordinates at once, else scan the own points with adjacentPoint. -/
def adjacentTo (r other : Region) : Bool :=
  if (other.bound_max.x < r.bound_min.x ∧ other.bound_max.y < r.bound_min.y) ∨
     (r.bound_max.x < other.bound_min.x ∧ r.bound_max.y < other.bound_min.y) then false
  else r.points.any (fun q => adjacentPoint q other)

/-- Rectangle mode point emission of the Region(Mat,bool) constructor with
flag mask = false: the whole first row, then for each row strictly between
the first and the last the left edge pixel followed by the right edge pixel,
then the whole last row. -/
def rectPoints (w h : Nat) (off : RPoint) : List RPoint :=
  ((List.range w).map (fun i => ⟨off.x + (i : Int), off.y⟩)) ++
  (((List.range' 1 (h - 2)).flatMap
      (fun i => [⟨off.x, off.y + (i : Int)⟩, ⟨off.x + (w : Int) - 1, off.y + (i : Int)⟩])) ++
   ((List.range w).map (fun i => ⟨off.x + (i : Int), off.y + (h : Int) - 1⟩)))

/-- Rectangle mode Region construction: bound_min is the offset, bound_max
is the offset plus the extent (exclusive corner), and the ycoords map is
built from the emitted points. -/
def rectRegion (w h : Nat) (off : RPoint) : Region :=
  ⟨off, ⟨off.x + (w : Int), off.y + (h : Int)⟩,
   rectPoints w h off, buildYMap (rectPoints w h off)⟩

/-- Byte of the mask at row i, column j, as read through ptr of row i. -/
def cellAt (g : List (List Nat)) (i j : Nat) : Nat :=
  (g.getD i []).getD j 0

/-- Truth value of m.at with element type int at row r, column c on a one
channel byte matrix of row stride w: the read reinterprets the 4 bytes at
byte offset w * r + 4 * c, and the resulting int is nonzero iff any of the
4 bytes is nonzero (independently of endianness).  The read is undefined
when it leaves the matrix buffer, which the Option models. -/
def atIntNonzero (g : List (List Nat)) (w r c : Nat) : Option Bool :=
  let buf := g.flatten
  let base := w * r + 4 * c
  if base + 4 ≤ buf.length then
    some (((buf.drop base).take 4).any (fun b => b != 0))
  else none

/-- Boundary test of one mask cell in the Region(Mat,bool) constructor with
flag mask = true, with the evaluation order and short circuiting of the
source condition: the cell must be set, and it is a boundary point when it
is on the outer border, or its left or right byte neighbour is unset, or
one of the two at reads with swapped indices and int element type yields
zero.  The at reads are exactly m.at with arguments (j, i-1) and (j, i+1)
as in the source. -/
def maskCellBoundary (g : List (List Nat)) (w h : Nat) (i j : Nat) : Option Bool :=
  if cellAt g i j = 0 then some false
  else if i = 0 ∨ j = 0 ∨ i = h - 1 ∨ j = w - 1 then some true
  else if cellAt g i (j - 1) = 0 ∨ cellAt g i (j + 1) = 0 then some true
  else
    match atIntNonzero g w j (i - 1) with
    | none => none
    | some a =>
      if a = false then some true
      else
        match atIntNonzero g w j (i + 1) with
        | none => none
        | some b => some (b = false)

/-- Inner column loop of the mask constructor for row i: collect the points
of the row left to right, offsetting by the ROI position. -/
def maskRowPts (g : List (List Nat)) (w h : Nat) (off : RPoint) (i : Nat) :
    List Nat → Option (List RPoint)
  | [] => some []
  | j :: js =>
    match maskCellBoundary g w h i j with
    | none => none
    | some b =>
      match maskRowPts g w h off i js with
      | none => none
      | some rest =>
        some (if b then ⟨(j : Int) + off.x, (i : Int) + off.y⟩ :: rest else rest)

/-- Outer row loop of the mask constructor: rows ascending, each row
contributing its points in column order. -/
def maskAllPts (g : List (List Nat)) (w h : Nat) (off : RPoint) :
    List Nat → Option (List RPoint)
  | [] => some []
  | i :: is' =>
    match maskRowPts g w h off i (List.range w) with
    | none => none
    | some row =>
      match maskAllPts g w h off is' with
      | none => none
      | some rest => some (row ++ rest)

/-- Point collection of the mask mode constructor over the whole grid. -/
def maskBoundaryPoints (g : List (List Nat)) (off : RPoint) : Option (List RPoint) :=
  maskAllPts g (g.headD []).length g.length off (List.range g.length)

/-- Mask mode Region construction: collect the boundary points, then read
bound_min from points.first() and bound_max from points.last() without any
emptiness check (the none branch for the empty list models the first and
last accesses performed on an empty sequence), then build the ycoords
map. -/
def regionOfMask (g : List (List Nat)) (off : RPoint) : Option Region :=
  match maskBoundaryPoints g off with
  | none => none
  | some [] => none
  | some (p :: rest) =>
    some ⟨p, (p :: rest).getLast (List.cons_ne_nil p rest), p :: rest,
      buildYMap (p :: rest)⟩

/-- Grid with every cell unset. -/
def zeroGrid (w h : Nat) : List (List Nat) :=
  List.replicate h (List.replicate w 0)

/-- Row count of the matrix allocated by Region.toMask, from the source
call Mat.zeros(bound_max.y() - 1, bound_max.x() - 1). -/
def toMaskRows (r : Region) : Int := r.bound_max.y - 1

/-- Column count of the matrix allocated by Region.toMask. -/
def toMaskCols (r : Region) : Int := r.bound_max.x - 1

/-- Size of the per column flag array xmap allocated by Region.toMask. -/
def xmapSize (r : Region) : Int := r.bound_max.x - r.bound_min.x

/-- Closed integer interval as a list, empty when b < a. -/
def intRange (a b : Int) : List Int :=
  (List.range (b + 1 - a).toNat).map (fun k => a + (k : Int))

/-- Indices used to subscript xmap in Region.toMask: every iteration of the
inner loop accesses xmap at the absolute column j, for j from bound_min.x()
to bound_max.x() inclusive, provided the outer row loop runs at all. -/
def xmapAccessed (r : Region) : List Int :=
  if intRange r.bound_min.y r.bound_max.y = [] then []
  else intRange r.bound_min.x r.bound_max.x

/-- Definition following the words of the specification for the mask mode
boundary (used to compare the source behaviour against the claim): a
boundary point is a set cell that is on the outer border of the mask or has
at least one unset 4-neighbour (left, right, up or down). -/
def specEdgeCell (g : List (List Nat)) (w h : Nat) (i j : Nat) : Bool :=
  (cellAt g i j != 0) &&
  ((i == 0) || (j == 0) || (i == h - 1) || (j == w - 1) ||
   (cellAt g i (j - 1) == 0) || (cellAt g i (j + 1) == 0) ||
   (cellAt g (i - 1) j == 0) || (cellAt g (i + 1) j == 0))

/-- Chain holds for any list when the relation is total. -/
lemma chain'_of_all {α : Type} (R : α → α → Prop) (h : ∀ a b, R a b) :
    ∀ l : List α, List.Chain' R l
  | [] => List.chain'_nil
  | [_] => List.chain'_singleton _
  | a :: b :: l => (List.chain'_cons).mpr ⟨h a b, chain'_of_all R h (b :: l)⟩

/-- Chain of nondecreasing rows over the two points per row emission of the
middle rectangle rows. -/
lemma chain'_pairFlatMap (f g : Nat → RPoint)
    (hfg : ∀ k, (f k).y ≤ (g k).y) (hgf : ∀ k, (g k).y ≤ (f (k + 1)).y) :
    ∀ (n j : Nat),
      List.Chain' (fun a b : RPoint => a.y ≤ b.y)
        ((List.range' j n).flatMap (fun k => [f k, g k])) := by
  intro n
  induction n with
  | zero => intro j; simp
  | succ m ih =>
    intro j
    rw [List.range'_succ, List.flatMap_cons]
    cases m with
    | zero =>
      simp only [List.range'_zero, List.flatMap_nil, List.append_nil]
      exact (List.chain'_cons).mpr ⟨hfg j, List.chain'_singleton _⟩
    | succ m' =>
      rw [List.range'_succ, List.flatMap_cons]
      have h2 := ih (j + 1)
      rw [List.range'_succ, List.flatMap_cons] at h2
      simp only [List.cons_append, List.nil_append] at h2 ⊢
      exact (List.chain'_cons).mpr ⟨hfg j, (List.chain'_cons).mpr ⟨hgf j, h2⟩⟩

/-- The result of the inBoundary scan does not depend on the fuel once the
fuel covers the remaining length of the list, so the fuel passed by
inBoundary is equivalent to the unbounded source loop. -/
lemma inBoundaryLoop_fuel_congr (pts : List RPoint) (q : RPoint) :
    ∀ (fuel fuel' i : Nat), pts.length ≤ i + fuel → pts.length ≤ i + fuel' →
      inBoundaryLoop pts q i fuel = inBoundaryLoop pts q i fuel' := by
  intro fuel
  induction fuel with
  | zero =>
    intro fuel' i h h'
    cases fuel' with
    | zero => rfl
    | succ m' =>
      have hc : ¬(i < pts.length ∧ (i : Int) = q.y) := fun hc => by omega
      simp only [inBoundaryLoop, if_neg hc]
  | succ m ih =>
    intro fuel' i h h'
    cases fuel' with
    | zero =>
      have hc : ¬(i < pts.length ∧ (i : Int) = q.y) := fun hc => by omega
      simp only [inBoundaryLoop, if_neg hc]
    | succ m' =>
      simp only [inBoundaryLoop]
      by_cases hc : i < pts.length ∧ (i : Int) = q.y
      · rw [if_pos hc, if_pos hc]
        by_cases hp : pts.getD i ⟨0, 0⟩ = q
        · rw [if_pos hp, if_pos hp]
        · rw [if_neg hp, if_neg hp]
          exact ih m' (i + 1) (by omega) (by omega)
      · rw [if_neg hc, if_neg hc]

/-- The result of the interior probe loop does not depend on the fuel once
some radius within the fuel satisfies the exit condition, so the fuel passed
by interior is equivalent to the unbounded source loop. -/
lemma interiorLoop_fuel_congr (r : Region) (q : RPoint) :
    ∀ (fuel fuel' : Nat) (i : Int), fuel ≤ fuel' →
      (∃ k : Nat, k < fuel ∧ outAll r q (i + (k : Int)) = true) →
      interiorLoop r q i fuel = interiorLoop r q i fuel' := by
  intro fuel
  induction fuel with
  | zero =>
    intro fuel' i _ hex
    rcases hex with ⟨k, hk, _⟩
    omega
  | succ m ih =>
    intro fuel' i hle hex
    rcases hex with ⟨k, hk, hout⟩
    cases fuel' with
    | zero => omega
    | succ m' =>
      simp only [interiorLoop]
      by_cases h1 : outAll r q i = true
      · rw [if_pos h1, if_pos h1]
      · rw [if_neg h1, if_neg h1]
        by_cases h2 : hitAny r q i = true
        · rw [if_pos h2, if_pos h2]
        · rw [if_neg h2, if_neg h2]
          have hk0 : k ≠ 0 := by
            intro h0
            rw [h0] at hout
            simp only [Nat.cast_zero, add_zero] at hout
            exact h1 hout
          refine ih m' (i + 1) (by omega) ⟨k - 1, by omega, ?_⟩
          have harg : i + 1 + ((k - 1 : Nat) : Int) = i + (k : Int) := by
            push_cast [Nat.cast_sub (by omega : 1 ≤ k)]
            ring
          rw [harg]
          exact hout

/-- The radius at which the interior loop is certain to have reached its
exit condition lies within the fuel chosen by interior. -/
lemma interiorFuel_reaches_exit (r : Region) (q : RPoint) :
    ∃ k : Nat, k < interiorFuel r q ∧ outAll r q (1 + (k : Int)) = true := by
  refine ⟨interiorFuel r q - 2, by simp [interiorFuel], ?_⟩
  simp only [outAll, decide_eq_true_eq, interiorFuel]
  omega

/-- Any fuel at least interiorFuel gives the same answer as interior. -/
lemma interior_fuel_stable (r : Region) (q : RPoint) (fuel : Nat)
    (hf : interiorFuel r q ≤ fuel) : interiorLoop r q 1 fuel = interior r q :=
  (interiorLoop_fuel_congr r q (interiorFuel r q) fuel 1 hf
    (interiorFuel_reaches_exit r q)).symm

/-- C1: the claim states that inBoundary returns true exactly when the point
occurs in the stored point sequence.  On the 2 by 2 rectangle at offset
(0,0) the point (0,1) is stored, yet inBoundary returns false: the source
loop guard compares the running list index with p.y instead of comparing
the row of the visited point, so the scan over the row starting at index 2
never runs. -/
theorem inBoundary_misses_stored_point :
    (⟨0, 1⟩ : RPoint) ∈ (rectRegion 2 2 ⟨0, 0⟩).points ∧
    inBoundary (rectRegion 2 2 ⟨0, 0⟩) ⟨0, 1⟩ = false := by
  constructor
  · decide
  · decide

/-- C2: the claim states that interior is true exactly when all four axis
directions hit a boundary point before leaving the bounding box.  On the
2 by 2 rectangle at offset (0,0) and the probe centre (-1,0), every stored
point has nonnegative x, so the minus x probes (at x at most -2) can never
resolve and the claim classifies the point as not interior; the source loop
nevertheless returns true because it exits as soon as one single direction
(the plus x probe hitting (0,0)) has resolved. -/
theorem interior_true_with_one_direction :
    interior (rectRegion 2 2 ⟨0, 0⟩) ⟨-1, 0⟩ = true ∧
    (rectRegion 2 2 ⟨0, 0⟩).points.all (fun q => 0 ≤ q.x) = true := by
  constructor
  · decide
  · decide

/-- C4: the claim states that mask mode stores exactly the set cells that
are edge cells (outer border or some unset 4-neighbour).  On the 4 by 4
mask with rows 1111, 1110, 1101, 0000 at offset (0,0), cell (row 1, column
1) has all four neighbours set and is not on the border, so it is not an
edge cell, yet the constructor appends it: the vertical neighbour test
reads m.at with int element type at the swapped position (j, i plus minus
1), which lands on the all zero row 3 instead of the set down neighbour. -/
theorem mask_includes_non_edge_cell :
    maskBoundaryPoints [[1,1,1,1],[1,1,1,0],[1,1,0,1],[0,0,0,0]] ⟨0, 0⟩ =
      some [⟨0,0⟩, ⟨1,0⟩, ⟨2,0⟩, ⟨3,0⟩, ⟨0,1⟩, ⟨1,1⟩, ⟨2,1⟩, ⟨0,2⟩, ⟨1,2⟩, ⟨3,2⟩] ∧
    specEdgeCell [[1,1,1,1],[1,1,1,0],[1,1,0,1],[0,0,0,0]] 4 4 1 1 = false := by
  constructor
  · decide
  · decide

/-- C5: the claim states that contains is false for every point outside the
bounding box.  On the 2 by 2 rectangle at offset (0,0) the point (0,3) lies
outside the box (its y exceeds bound_max.y), is not caught by the one
dimensional fast reject, and interior returns true for it (the minus y
probe hits the stored point (0,0) at radius 3 before the exit condition,
which requires leaving the box in all four directions at once, can fire),
so contains returns true. -/
theorem contains_true_outside_box :
    (rectRegion 2 2 ⟨0, 0⟩).bound_max.y < 3 ∧
    contains (rectRegion 2 2 ⟨0, 0⟩) ⟨0, 3⟩ = true := by
  constructor
  · decide
  · decide

/-- C6: the claim states that adjacentTo is true exactly when some stored
point of the receiver has a 4-neighbour among the stored points of the
argument.  For the 2 by 2 rectangles at offsets (2,0) and (0,0) the stored
point (2,0) has the 4-neighbour (1,0) stored in the other region, so the
claim requires true, but adjacentTo returns false: the probes go through
inBoundary, whose index bug makes it miss (1,0). -/
theorem adjacentTo_misses_touching_regions :
    adjacentTo (rectRegion 2 2 ⟨2, 0⟩) (rectRegion 2 2 ⟨0, 0⟩) = false ∧
    (⟨2, 0⟩ : RPoint) ∈ (rectRegion 2 2 ⟨2, 0⟩).points ∧
    (⟨1, 0⟩ : RPoint) ∈ (rectRegion 2 2 ⟨0, 0⟩).points ∧
    ((⟨2, 0⟩ : RPoint) + ⟨-1, 0⟩) = ⟨1, 0⟩ := by
  refine ⟨by decide, by decide, by decide, by decide⟩

/-- C7: the claim states that adjacentTo is symmetric.  For the 2 by 3
rectangle at offset (3,1) and the 2 by 2 rectangle at offset (1,2) the two
call directions disagree: the set of points at which the buggy inBoundary
answers true is empty for the 2 by 2 region but contains (3,2) for the
2 by 3 region, so only the scan of the 2 by 2 points finds a hit. -/
theorem adjacentTo_not_symmetric :
    adjacentTo (rectRegion 2 3 ⟨3, 1⟩) (rectRegion 2 2 ⟨1, 2⟩) = false ∧
    adjacentTo (rectRegion 2 2 ⟨1, 2⟩) (rectRegion 2 3 ⟨3, 1⟩) = true := by
  constructor
  · decide
  · decide

/-- C8: the claim states that toMask on a mask built Region produces a mask
covering the bounding box whose set cells include all stored boundary
points.  For the all set 2 by 2 mask at offset (0,0) the constructed Region
has four stored points and bound_max (1,1), but toMask allocates a matrix
of bound_max.y - 1 = 0 rows and bound_max.x - 1 = 0 columns, so no cell of
the output can be set at all. -/
theorem toMask_output_cannot_hold_boundary :
    regionOfMask [[1, 1], [1, 1]] ⟨0, 0⟩ =
      some ⟨⟨0, 0⟩, ⟨1, 1⟩, [⟨0, 0⟩, ⟨1, 0⟩, ⟨0, 1⟩, ⟨1, 1⟩], [(1, 2), (0, 0)]⟩ ∧
    toMaskRows ⟨⟨0, 0⟩, ⟨1, 1⟩, [⟨0, 0⟩, ⟨1, 0⟩, ⟨0, 1⟩, ⟨1, 1⟩], [(1, 2), (0, 0)]⟩ = 0 ∧
    toMaskCols ⟨⟨0, 0⟩, ⟨1, 1⟩, [⟨0, 0⟩, ⟨1, 0⟩, ⟨0, 1⟩, ⟨1, 1⟩], [(1, 2), (0, 0)]⟩ = 0 := by
  refine ⟨by decide, by decide, by decide⟩

/-- C9: the claim states that every access to the per column flag array of
toMask stays within its bounds because the index is taken relative to
bound_min.x.  The source indexes xmap by the absolute column j: for the
2 by 2 rectangle at offset (0,0) the array has bound_max.x - bound_min.x =
2 entries while the inner loop accesses xmap at the absolute columns 0, 1
and 2, so the access at column 2 is out of bounds. -/
theorem xmap_access_out_of_bounds :
    xmapSize (rectRegion 2 2 ⟨0, 0⟩) = 2 ∧
    (2 : Int) ∈ xmapAccessed (rectRegion 2 2 ⟨0, 0⟩) ∧
    ¬((2 : Int) < xmapSize (rectRegion 2 2 ⟨0, 0⟩)) := by
  refine ⟨by decide, by decide, by decide⟩

/-- C3: rectangle mode construction with width and height at least 2 yields
exactly 2w + 2h - 4 boundary points, emitted in nondecreasing row order,
with bound_min the offset and bound_max the offset plus the extent; the
5 by 4 rectangle at offset (0,0) yields the stated 14 points. -/
theorem rect_construction_correct (w h : Nat) (off : RPoint)
    (hw : 2 ≤ w) (hh : 2 ≤ h) :
    (rectRegion w h off).points.length = 2 * w + 2 * h - 4 ∧
    List.Chain' (fun a b : RPoint => a.y ≤ b.y) (rectRegion w h off).points ∧
    (rectRegion w h off).bound_min = off ∧
    (rectRegion w h off).bound_max = ⟨off.x + (w : Int), off.y + (h : Int)⟩ ∧
    (rectRegion 5 4 ⟨0, 0⟩).points =
      [⟨0, 0⟩, ⟨1, 0⟩, ⟨2, 0⟩, ⟨3, 0⟩, ⟨4, 0⟩, ⟨0, 1⟩, ⟨4, 1⟩, ⟨0, 2⟩, ⟨4, 2⟩,
       ⟨0, 3⟩, ⟨1, 3⟩, ⟨2, 3⟩, ⟨3, 3⟩, ⟨4, 3⟩] ∧
    (rectRegion 5 4 ⟨0, 0⟩).bound_min = ⟨0, 0⟩ ∧
    (rectRegion 5 4 ⟨0, 0⟩).bound_max = ⟨5, 4⟩ := by
  refine ⟨?_, ?_, rfl, rfl, by decide, by decide, by decide⟩
  · show (rectPoints w h off).length = 2 * w + 2 * h - 4
    simp only [rectPoints, List.length_append, List.length_map, List.length_range,
      List.length_flatMap, Function.comp_def, List.length_cons, List.length_nil]
    rw [List.map_const', List.sum_replicate, List.length_range', smul_eq_mul]
    omega
  · show List.Chain' (fun a b : RPoint => a.y ≤ b.y) (rectPoints w h off)
    unfold rectPoints
    refine List.chain'_append.mpr ⟨?_, List.chain'_append.mpr ⟨?_, ?_, ?_⟩, ?_⟩
    · exact (List.chain'_map _).mpr (chain'_of_all _ (fun _ _ => le_rfl) _)
    · refine chain'_pairFlatMap (fun i => ⟨off.x, off.y + (i : Int)⟩)
        (fun i => ⟨off.x + (w : Int) - 1, off.y + (i : Int)⟩)
        (fun k => le_rfl) (fun k => ?_) (h - 2) 1
      show off.y + (k : Int) ≤ off.y + ((k + 1 : Nat) : Int)
      push_cast
      omega
    · exact (List.chain'_map _).mpr (chain'_of_all _ (fun _ _ => le_rfl) _)
    · intro a ha b hb
      have ha' := List.mem_of_mem_getLast? ha
      have hb' := List.mem_of_mem_head? hb
      rcases List.mem_flatMap.mp ha' with ⟨k, hk, hak⟩
      rcases List.mem_range'_1.mp hk with ⟨hk1, hk2⟩
      rcases List.mem_map.mp hb' with ⟨i, _, hbi⟩
      simp only [List.mem_cons, List.not_mem_nil, or_false] at hak
      have hay : a.y = off.y + (k : Int) := by
        rcases hak with h1 | h1
        · rw [h1]
        · rw [h1]
      have hby : b.y = off.y + (h : Int) - 1 := by rw [← hbi]
      rw [hay, hby]
      have : (k : Int) ≤ (h : Int) - 2 := by omega
      omega
    · intro a ha b hb
      have ha' := List.mem_of_mem_getLast? ha
      have hb' := List.mem_of_mem_head? hb
      rcases List.mem_map.mp ha' with ⟨i, _, hai⟩
      have hay : a.y = off.y := by rw [← hai]
      rw [hay]
      rcases List.mem_append.mp hb' with hbm | hbb
      · rcases List.mem_flatMap.mp hbm with ⟨k, hk, hbk⟩
        rcases List.mem_range'_1.mp hk with ⟨hk1, _⟩
        simp only [List.mem_cons, List.not_mem_nil, or_false] at hbk
        have hby : b.y = off.y + (k : Int) := by
          rcases hbk with h1 | h1
          · rw [h1]
          · rw [h1]
        rw [hby]
        omega
      · rcases List.mem_map.mp hbb with ⟨i', _, hbi⟩
        have hby : b.y = off.y + (h : Int) - 1 := by rw [← hbi]
        rw [hby]
        omega

/-- Closed instance of the rectangle construction theorem at the 5 by 4
rectangle of the example in the claim. -/
theorem rect_construction_correct_witness :
    (rectRegion 5 4 ⟨0, 0⟩).points.length = 2 * 5 + 2 * 4 - 4 ∧
    List.Chain' (fun a b : RPoint => a.y ≤ b.y) (rectRegion 5 4 ⟨0, 0⟩).points ∧
    (rectRegion 5 4 ⟨0, 0⟩).bound_min = ⟨0, 0⟩ ∧
    (rectRegion 5 4 ⟨0, 0⟩).bound_max = ⟨(0 : Int) + ((5 : Nat) : Int), (0 : Int) + ((4 : Nat) : Int)⟩ ∧
    (rectRegion 5 4 ⟨0, 0⟩).points =
      [⟨0, 0⟩, ⟨1, 0⟩, ⟨2, 0⟩, ⟨3, 0⟩, ⟨4, 0⟩, ⟨0, 1⟩, ⟨4, 1⟩, ⟨0, 2⟩, ⟨4, 2⟩,
       ⟨0, 3⟩, ⟨1, 3⟩, ⟨2, 3⟩, ⟨3, 3⟩, ⟨4, 3⟩] ∧
    (rectRegion 5 4 ⟨0, 0⟩).bound_min = ⟨0, 0⟩ ∧
    (rectRegion 5 4 ⟨0, 0⟩).bound_max = ⟨5, 4⟩ :=
  rect_construction_correct 5 4 ⟨0, 0⟩ (by decide) (by decide)

/-- Reading a replicated list with default. -/
lemma getD_replicate {α : Type} (a d : α) :
    ∀ (n i : Nat), (List.replicate n a).getD i d = if i < n then a else d := by
  intro n
  induction n with
  | zero => intro i; simp
  | succ m ih =>
    intro i
    cases i with
    | zero => simp [List.replicate]
    | succ i' =>
      rw [List.replicate, List.getD_cons_succ, ih]
      simp [Nat.succ_lt_succ_iff]

/-- Every cell of the all zero grid reads as zero. -/
lemma cellAt_zeroGrid (w h i j : Nat) : cellAt (zeroGrid w h) i j = 0 := by
  unfold cellAt zeroGrid
  rw [getD_replicate]
  split
  · rw [getD_replicate]
    split <;> rfl
  · simp

/-- On the all zero grid no cell is a boundary cell and no at read runs. -/
lemma maskCellBoundary_zeroGrid (w h w' h' i j : Nat) :
    maskCellBoundary (zeroGrid w h) w' h' i j = some false := by
  simp [maskCellBoundary, cellAt_zeroGrid]

/-- On the all zero grid every row contributes no points. -/
lemma maskRowPts_zeroGrid (w h w' h' : Nat) (off : RPoint) (i : Nat) :
    ∀ js : List Nat, maskRowPts (zeroGrid w h) w' h' off i js = some [] := by
  intro js
  induction js with
  | nil => rfl
  | cons j rest ih => simp [maskRowPts, maskCellBoundary_zeroGrid, ih]

/-- On the all zero grid the whole collection is empty. -/
lemma maskAllPts_zeroGrid (w h w' h' : Nat) (off : RPoint) :
    ∀ is' : List Nat, maskAllPts (zeroGrid w h) w' h' off is' = some [] := by
  intro is'
  induction is' with
  | nil => rfl
  | cons i rest ih => simp [maskAllPts, maskRowPts_zeroGrid, ih]

/-- C10: mask mode construction reads points.first() and points.last()
unconditionally, so the accesses are in bounds exactly when the mask
contributes at least one boundary point: whenever the collected sequence is
nonempty the construction completes, and on an all unset mask of any size
the collected sequence is empty, so the first and last reads are performed
on an empty sequence (modelled by the construction returning none at the
head and last accesses). -/
theorem mask_first_last_needs_nonempty :
    (∀ (w h : Nat) (off : RPoint),
        maskBoundaryPoints (zeroGrid w h) off = some [] ∧
        regionOfMask (zeroGrid w h) off = none) ∧
    (∀ (g : List (List Nat)) (off : RPoint) (pts : List RPoint),
        maskBoundaryPoints g off = some pts → pts ≠ [] →
        (regionOfMask g off).isSome = true) := by
  constructor
  · intro w h off
    have hmb : maskBoundaryPoints (zeroGrid w h) off = some [] := by
      unfold maskBoundaryPoints
      exact maskAllPts_zeroGrid w h _ _ off _
    refine ⟨hmb, ?_⟩
    unfold regionOfMask
    rw [hmb]
  · intro g off pts hmb hne
    unfold regionOfMask
    cases pts with
    | nil => exact absurd rfl hne
    | cons a t =>
      rw [hmb]
      rfl

/-- Closed instance of the first and last access precondition theorem: the
2 by 2 all unset mask yields no point and the construction fails, while the
2 by 2 all set mask yields four points and the construction succeeds. -/
theorem mask_first_last_needs_nonempty_witness :
    (maskBoundaryPoints (zeroGrid 2 2) ⟨0, 0⟩ = some [] ∧
     regionOfMask (zeroGrid 2 2) ⟨0, 0⟩ = none) ∧
    (regionOfMask [[1, 1], [1, 1]] ⟨0, 0⟩).isSome = true :=
  ⟨mask_first_last_needs_nonempty.1 2 2 ⟨0, 0⟩,
   mask_first_last_needs_nonempty.2 [[1, 1], [1, 1]] ⟨0, 0⟩
     [⟨0, 0⟩, ⟨1, 0⟩, ⟨0, 1⟩, ⟨1, 1⟩] (by decide) (by decide)⟩

end ImageProcessing
